import Mathlib

/-!
# nproc: a verification development

A shallow embedding of `src/nproc.c` (the GNU/Linux branch of its
conditional compilation, LP64: `int` is 32 bits wide, `long` is 64 bits wide).

* C `int` and `long` values are Lean `Int`s; a conversion or an arithmetic
  result that leaves the range of `int` wraps modulo `2^32` (`to_int`).
* The C library is modelled from the ISO C / POSIX descriptions of the
  functions the program calls: `strtol` (base 10), `printf("%d")`, and the
  results of `sched_getaffinity` / `CPU_COUNT` and `sysconf`, which are the
  fields of `OS`.
* `getopt_long` is the program's input: `main` consumes the sequence of
  values `getopt_long` returns, each with the `optarg` it leaves behind.
* A process run is summarised by `Proc`: the text written on standard
  output, the body of the diagnostic handed to `err`/`errx`, and the exit
  status.
-/

namespace Nproc

/-! ## Machine integers -/

/-- Largest value of a C `int` (32 bits). -/
def INT_MAX : Int := 2147483647

/-- Smallest value of a C `int` (32 bits). -/
def INT_MIN : Int := -2147483648

/-- Largest value of a C `long` (64 bits). -/
def LONG_MAX : Int := 9223372036854775807

/-- Smallest value of a C `long` (64 bits). -/
def LONG_MIN : Int := -9223372036854775808

/-- Conversion to `int`, `(int)x`: the value modulo `2^32`, taken in the range of `int`. -/
def to_int (x : Int) : Int := (x + 2147483648) % 4294967296 - 2147483648

/-- Value of `errno` after a range error. -/
def ERANGE : Int := 34

/-- Exit status `EXIT_SUCCESS`. -/
def EXIT_SUCCESS : Int := 0

/-- Exit status `EXIT_FAILURE`. -/
def EXIT_FAILURE : Int := 1

/-! ## `strtol` in base 10 -/

/-- White space in the C locale: space, `\t`, `\n`, `\v`, `\f`, `\r`. -/
def isspace (c : Char) : Bool :=
  c.toNat = 32 || (9 ≤ c.toNat && c.toNat ≤ 13)

/-- Decimal digits `0` to `9`. -/
def isdigit (c : Char) : Bool :=
  48 ≤ c.toNat && c.toNat ≤ 57

/-- Value of a run of decimal digits, most significant digit first. -/
def digits_value (ds : List Char) : Nat :=
  ds.foldl (fun acc c => 10 * acc + (c.toNat - 48)) 0

/-- What `strtol` leaves behind: the value returned, the offset of `*endptr`
from the start of the string, and the value of `errno` (which the caller
cleared before the call). -/
structure StrtolResult where
  ret : Int
  eptr : Nat
  errno : Int
deriving DecidableEq

/-- The sign character `strtol` accepts in front of the digits: whether the
subject is negated, and what follows the sign. -/
def strtol_sign : List Char → Bool × List Char
  | [] => (false, [])
  | c :: r =>
    if c = '-' then (true, r)
    else if c = '+' then (false, r)
    else (false, c :: r)

/-- Value of a run of digits with its sign applied. -/
def signed_value (neg : Bool) (ds : List Char) : Int :=
  if neg then -(digits_value ds : Int) else (digits_value ds : Int)

/-- Model of `strtol(s, &eptr, 10)` called with `errno == 0`: skip white
space, take an optional sign, then the longest run of decimal digits.
Without a digit nothing is converted: the result is `0` and `eptr == s`.
A value outside the range of `long` is replaced by `LONG_MAX` or `LONG_MIN`
and `errno` becomes `ERANGE`. -/
def strtol (s : List Char) : StrtolResult :=
  let t := s.dropWhile isspace
  let neg := (strtol_sign t).1
  let u := (strtol_sign t).2
  let ds := u.takeWhile isdigit
  if ds = [] then
    { ret := 0, eptr := 0, errno := 0 }
  else
    let v := signed_value neg ds
    let e := (s.length - u.length) + ds.length
    if v > LONG_MAX then { ret := LONG_MAX, eptr := e, errno := ERANGE }
    else if v < LONG_MIN then { ret := LONG_MIN, eptr := e, errno := ERANGE }
    else { ret := v, eptr := e, errno := 0 }

/-! ## `safe_atoi` -/

/-- Model of `safe_atoi`: `Except.error msg` is the call of
`errx(EXIT_FAILURE, "invalid number: '%s'", s)`, which ends the process;
`Except.ok n` is the `int` returned, `(int)ret`. -/
def safe_atoi (s : String) : Except String Int :=
  let r := strtol s.data
  if r.errno ≠ 0 ∨ r.eptr = 0 ∨ r.ret < 0 then
    Except.error ("invalid number: '" ++ s ++ "'")
  else
    Except.ok (to_int r.ret)

/-! ## The CPU queries -/

/-- The operating system as the program queries it.
`sched_getaffinity` is `none` when the call returns `-1`, and otherwise the
number of CPUs in the set it fills in (what `CPU_COUNT` then returns).
`sysconf` maps the name queried to the `long` returned. -/
structure OS where
  sched_getaffinity : Option Nat
  sysconf : Int → Int

/-- Name `_SC_NPROCESSORS_CONF` of `<unistd.h>` (its value in glibc). -/
def _SC_NPROCESSORS_CONF : Int := 83

/-- Name `_SC_NPROCESSORS_ONLN` of `<unistd.h>` (its value in glibc). -/
def _SC_NPROCESSORS_ONLN : Int := 84

/-- Model of `count_usable_cpus`: `Except.error msg` is the call of
`err(EXIT_FAILURE, msg)`, which ends the process. -/
def count_usable_cpus (os : OS) : Except String Int :=
  match os.sched_getaffinity with
  | none => Except.error "sched_getaffinity()"
  | some n => Except.ok (to_int n)

/-- Model of `get_count_type_cpus`: `Except.error msg` is the call of
`err(EXIT_FAILURE, msg)`; otherwise the `long` is returned as an `int`. -/
def get_count_type_cpus (os : OS) (query : Int) : Except String Int :=
  let cpus := os.sysconf query
  if cpus = -1 then Except.error "sysconf()"
  else Except.ok (to_int cpus)

/-! ## Output -/

/-- A finished run of the process: what it wrote on standard output, the
message it handed to `err`/`errx` (empty when it called neither), and its
exit status. -/
structure Proc where
  stdout : String
  stderr : String
  status : Int
deriving DecidableEq

/-- Text written by `fprintf(stdout, "%d\n", cpus)`. -/
def fprintf_d (cpus : Int) : String :=
  toString cpus ++ "\n"

/-- Text `show_usage` writes. -/
def usage_text : String :=
  "usage: nproc [--all] [--online] [--usable] [--ignore=COUNT]\n       [--help] [--version]\n"

/-- Model of `show_usage`: the text goes to standard output when `out_okay`
is nonzero and to standard error otherwise. The pair is (stdout, stderr). -/
def show_usage (out_okay : Int) : String × String :=
  if out_okay ≠ 0 then (usage_text, "") else ("", usage_text)

/-- Text written by `fputs("nproc "PROGVER"\n", stdout)`. -/
def version_text : String := "nproc 0.1\n"

/-- The process ends through `err`/`errx` with `EXIT_FAILURE`. -/
def die (msg : String) : Proc :=
  { stdout := "", stderr := msg, status := EXIT_FAILURE }

/-! ## `main` -/

/-- Argument options structure. -/
structure arg_opts where
  aopt : Int
  oopt : Int
  uopt : Int
  iopt : Int
  hopt : Int
  vopt : Int
deriving DecidableEq

def OPT_ALL : Int := 1
def OPT_ONLINE : Int := 2
def OPT_USABLE : Int := 3
def OPT_IGNORE : Int := 4
def OPT_HELP : Int := 5
def OPT_VERSION : Int := 6
def OPT_NONE : Int := 0

/-- One call of `getopt_long`: the value returned and the `optarg` it set. -/
structure GetoptCall where
  c : Int
  optarg : String
deriving DecidableEq

/-- The option loop of `main`. The list holds the results of the successive
calls of `getopt_long`; once it is used up, `getopt_long` returns `-1`.
`Except.error p` is a process that ended inside the loop. What
`getopt_long` itself prints on standard error for an option it does not
know is not recorded. -/
def getopt_loop : List GetoptCall → arg_opts → Int → Except Proc (arg_opts × Int)
  | [], opts, inum => Except.ok (opts, inum)
  | g :: rest, opts, inum =>
    if g.c = -1 then Except.ok (opts, inum)
    else if g.c = OPT_ALL then getopt_loop rest { opts with aopt := 1 } inum
    else if g.c = OPT_ONLINE then getopt_loop rest { opts with oopt := 1 } inum
    else if g.c = OPT_USABLE then getopt_loop rest { opts with uopt := 1 } inum
    else if g.c = OPT_IGNORE then
      match safe_atoi g.optarg with
      | Except.error msg => Except.error (die msg)
      | Except.ok n => getopt_loop rest { opts with iopt := 1 } n
    else if g.c = OPT_HELP then getopt_loop rest { opts with hopt := 1 } inum
    else if g.c = OPT_VERSION then getopt_loop rest { opts with vopt := 1 } inum
    else Except.error { stdout := "", stderr := "", status := EXIT_FAILURE }

/-- The branches of `main` that follow the option loop. -/
def main_resolve (opts : arg_opts) (inum : Int) (os : OS) : Proc :=
  if opts.iopt = 0 ∧ opts.aopt ≠ 0 then
    match get_count_type_cpus os _SC_NPROCESSORS_CONF with
    | Except.error msg => die msg
    | Except.ok cpus => { stdout := fprintf_d cpus, stderr := "", status := EXIT_SUCCESS }
  else if opts.iopt = 0 ∧ opts.oopt ≠ 0 then
    match get_count_type_cpus os _SC_NPROCESSORS_ONLN with
    | Except.error msg => die msg
    | Except.ok cpus => { stdout := fprintf_d cpus, stderr := "", status := EXIT_SUCCESS }
  else if opts.iopt = 0 ∧ opts.uopt ≠ 0 then
    match count_usable_cpus os with
    | Except.error msg => die msg
    | Except.ok cpus => { stdout := fprintf_d cpus, stderr := "", status := EXIT_SUCCESS }
  else if opts.iopt ≠ 0 then
    let opts : arg_opts :=
      if opts.aopt = 0 ∧ opts.oopt = 0 ∧ opts.uopt = 0 then { opts with uopt := 1 } else opts
    if opts.uopt ≠ 0 then
      match count_usable_cpus os with
      | Except.error msg => die msg
      | Except.ok cpus =>
        let cpus := if inum > cpus then 1 else to_int (cpus - inum)
        { stdout := fprintf_d cpus, stderr := "", status := EXIT_SUCCESS }
    else
      let sc := if opts.aopt ≠ 0 then _SC_NPROCESSORS_CONF else _SC_NPROCESSORS_ONLN
      match get_count_type_cpus os sc with
      | Except.error msg => die msg
      | Except.ok cpus =>
        let cpus := if inum > cpus then 1 else to_int (cpus - inum)
        { stdout := fprintf_d cpus, stderr := "", status := EXIT_SUCCESS }
  else if opts.hopt ≠ 0 then
    { stdout := (show_usage 1).1, stderr := (show_usage 1).2, status := EXIT_SUCCESS }
  else if opts.vopt ≠ 0 then
    { stdout := version_text, stderr := "", status := EXIT_SUCCESS }
  else
    match count_usable_cpus os with
    | Except.error msg => die msg
    | Except.ok cpus => { stdout := fprintf_d cpus, stderr := "", status := EXIT_SUCCESS }

/-- Model of `main`: `argc` is the argument count, `gs` the results of the
successive calls of `getopt_long` on the argument vector. -/
def main (argc : Int) (gs : List GetoptCall) (os : OS) : Proc :=
  if argc < 2 then
    match count_usable_cpus os with
    | Except.error msg => die msg
    | Except.ok cpus => { stdout := fprintf_d cpus, stderr := "", status := EXIT_SUCCESS }
  else
    match getopt_loop gs ⟨0, 0, 0, 0, 0, 0⟩ 0 with
    | Except.error p => p
    | Except.ok (opts, inum) => main_resolve opts inum os

/-! ## Vocabulary of the claims about `main` -/

/-- The option with code `k` was delivered by some call of `getopt_long`. -/
def given (k : Int) (gs : List GetoptCall) : Bool :=
  gs.any (fun g => decide (g.c = k))

/-- A result of `getopt_long` the option loop goes past: one of the six
options, with a count `safe_atoi` accepts when it is `--ignore`. -/
def accepted (g : GetoptCall) : Bool :=
  decide (g.c = OPT_ALL) || decide (g.c = OPT_ONLINE) || decide (g.c = OPT_USABLE) ||
  decide (g.c = OPT_HELP) || decide (g.c = OPT_VERSION) ||
  (decide (g.c = OPT_IGNORE) &&
    match safe_atoi g.optarg with
    | Except.ok _ => true
    | Except.error _ => false)

/-- The run that prints the count a query returns: the count on one line and
success, or nothing on standard output and failure when the query fails. -/
def report (q : Except String Int) : Proc :=
  match q with
  | Except.error msg => die msg
  | Except.ok cpus => { stdout := fprintf_d cpus, stderr := "", status := EXIT_SUCCESS }

/-- The value of `inum` when the option loop ends: the count of the last `--ignore`. -/
def final_inum : List GetoptCall → Int → Int
  | [], inum => inum
  | g :: rest, inum =>
    if g.c = OPT_IGNORE then
      match safe_atoi g.optarg with
      | Except.ok n => final_inum rest n
      | Except.error _ => final_inum rest inum
    else final_inum rest inum

/-- The ignore adjustment applied to the outcome of a query: a failed query
stays failed, a count is replaced as the `--ignore` branch of `main` does. -/
def adjusted (inum : Int) (q : Except String Int) : Except String Int :=
  match q with
  | Except.error msg => Except.error msg
  | Except.ok cpus => Except.ok (if inum > cpus then 1 else to_int (cpus - inum))

/-- The query whose count is the base of the ignore adjustment, by the flags given. -/
def ignore_base (gs : List GetoptCall) (os : OS) : Except String Int :=
  if given OPT_USABLE gs = true ∨
      (given OPT_ALL gs = false ∧ given OPT_ONLINE gs = false ∧ given OPT_USABLE gs = false) then
    count_usable_cpus os
  else if given OPT_ALL gs = true then get_count_type_cpus os _SC_NPROCESSORS_CONF
  else get_count_type_cpus os _SC_NPROCESSORS_ONLN

/-- A complete output: a decimal integer on one line, the usage text, or the version line. -/
def complete_output (out : String) : Prop :=
  (∃ n : Int, out = fprintf_d n) ∨ out = usage_text ∨ out = version_text

/-- An example system: 4 usable CPUs, 8 configured, 6 online. -/
def example_os : OS :=
  { sched_getaffinity := some 4
    sysconf := fun q =>
      if q = _SC_NPROCESSORS_CONF then 8 else if q = _SC_NPROCESSORS_ONLN then 6 else -1 }

/-- Number of newline characters in a text. -/
def line_count (s : String) : Nat :=
  s.data.count '\n'

/-! ## Reading a numeral: the shape `strtol` recognises -/

/-- The string `s` begins with a numeral: white space, an optional sign
(`neg` tells whether it is `-`), a nonempty run of decimal digits `ds`, and
then `rest`, which does not start with a digit. -/
def LeadingNumeral (s : List Char) (neg : Bool) (ds rest : List Char) : Prop :=
  ∃ ws sign : List Char, s = ws ++ (sign ++ (ds ++ rest)) ∧
    (∀ c ∈ ws, isspace c = true) ∧
    ((sign = [] ∧ neg = false) ∨ (sign = ['+'] ∧ neg = false) ∨ (sign = ['-'] ∧ neg = true)) ∧
    ds ≠ [] ∧ (∀ c ∈ ds, isdigit c = true) ∧
    (∀ c ∈ rest.head?, isdigit c = false)

/-- The whole string is a base-10 integer numeral: an optional sign followed
by one or more decimal digits, and nothing else. -/
def is_decimal_numeral (s : List Char) : Bool :=
  match s with
  | [] => false
  | c :: r =>
    if c = '-' ∨ c = '+' then !r.isEmpty && r.all isdigit
    else isdigit c && r.all isdigit

/-- The integer a whole-string base-10 numeral denotes; `none` when the
string is not such a numeral. -/
def whole_value (s : List Char) : Option Int :=
  if is_decimal_numeral s then
    some (signed_value (strtol_sign s).1 (strtol_sign s).2)
  else none

theorem isdigit_not_isspace {c : Char} (h : isdigit c = true) : isspace c = false := by
  simp only [isdigit, isspace, Bool.and_eq_true, Bool.or_eq_false_iff, Bool.and_eq_false_imp,
    decide_eq_true_eq, decide_eq_false_iff_not] at *
  omega

theorem isdigit_ne_minus {c : Char} (h : isdigit c = true) : c ≠ '-' := by
  rintro rfl; revert h; decide

theorem isdigit_ne_plus {c : Char} (h : isdigit c = true) : c ≠ '+' := by
  rintro rfl; revert h; decide

theorem dropWhile_append_all (p : Char → Bool) (ws x : List Char)
    (h : ∀ c ∈ ws, p c = true) : (ws ++ x).dropWhile p = x.dropWhile p := by
  induction ws with
  | nil => rfl
  | cons a ws ih =>
    have ha : p a = true := h a (List.mem_cons_self _ _)
    simp only [List.cons_append, List.dropWhile_cons, ha, if_true]
    exact ih (fun c hc => h c (List.mem_cons_of_mem _ hc))

theorem takeWhile_digits_append (ds rest : List Char)
    (hd : ∀ c ∈ ds, isdigit c = true) (hr : ∀ c ∈ rest.head?, isdigit c = false) :
    (ds ++ rest).takeWhile isdigit = ds := by
  induction ds with
  | nil =>
    cases rest with
    | nil => rfl
    | cons a r =>
      have : isdigit a = false := hr a (by simp)
      simp [List.takeWhile_cons, this]
  | cons a ds ih =>
    have ha : isdigit a = true := hd a (List.mem_cons_self _ _)
    simp only [List.cons_append, List.takeWhile_cons, ha, if_true]
    rw [ih (fun c hc => hd c (List.mem_cons_of_mem _ hc))]

/-- The parts `strtol` computes are the parts of the leading numeral. -/
theorem leading_parts {s : List Char} {neg : Bool} {ds rest : List Char}
    (h : LeadingNumeral s neg ds rest) :
    (strtol_sign (s.dropWhile isspace)).1 = neg ∧
    (strtol_sign (s.dropWhile isspace)).2 = ds ++ rest ∧
    ((strtol_sign (s.dropWhile isspace)).2.takeWhile isdigit) = ds := by
  obtain ⟨ws, sign, hs, hws, hsign, hne, hds, hrest⟩ := h
  obtain ⟨d, ds1, rfl⟩ := List.exists_cons_of_ne_nil hne
  have hd : isdigit d = true := hds d (List.mem_cons_self _ _)
  have htw := takeWhile_digits_append (d :: ds1) rest hds hrest
  subst hs
  rw [dropWhile_append_all isspace ws _ hws]
  rcases hsign with ⟨rfl, rfl⟩ | ⟨rfl, rfl⟩ | ⟨rfl, rfl⟩
  · have e : ([] ++ (d :: ds1 ++ rest)).dropWhile isspace = d :: ds1 ++ rest := by
      simp [List.dropWhile_cons, isdigit_not_isspace hd]
    rw [e]
    simp only [List.cons_append, strtol_sign, isdigit_ne_minus hd, isdigit_ne_plus hd, if_false]
    simpa using htw
  · have e : (['+'] ++ (d :: ds1 ++ rest)).dropWhile isspace = '+' :: (d :: ds1 ++ rest) := by
      rw [List.singleton_append, List.dropWhile_cons]
      have : isspace '+' = false := by decide
      simp [this]
    rw [e]
    have : ('+' : Char) ≠ '-' := by decide
    simp only [strtol_sign, this, if_false, if_true]
    simpa using htw
  · have e : (['-'] ++ (d :: ds1 ++ rest)).dropWhile isspace = '-' :: (d :: ds1 ++ rest) := by
      rw [List.singleton_append, List.dropWhile_cons]
      have : isspace '-' = false := by decide
      simp [this]
    rw [e]
    simp only [strtol_sign, if_true]
    simpa using htw

/-- The sign `strtol_sign` strips is one of nothing, `+` and `-`. -/
theorem strtol_sign_split (t : List Char) :
    ∃ sign : List Char, t = sign ++ (strtol_sign t).2 ∧
      ((sign = [] ∧ (strtol_sign t).1 = false) ∨ (sign = ['+'] ∧ (strtol_sign t).1 = false) ∨
        (sign = ['-'] ∧ (strtol_sign t).1 = true)) := by
  cases t with
  | nil => exact ⟨[], rfl, Or.inl ⟨rfl, rfl⟩⟩
  | cons c r =>
    by_cases h1 : c = '-'
    · subst h1
      exact ⟨['-'], by simp [strtol_sign], Or.inr (Or.inr ⟨rfl, by simp [strtol_sign]⟩)⟩
    · by_cases h2 : c = '+'
      · subst h2
        exact ⟨['+'], by simp [strtol_sign], Or.inr (Or.inl ⟨rfl, by simp [strtol_sign]⟩)⟩
      · exact ⟨[], by simp [strtol_sign, h1, h2], Or.inl ⟨rfl, by simp [strtol_sign, h1, h2]⟩⟩

/-- When `strtol` finds a digit, the string begins with a numeral, whose
parts are the ones `strtol` computes. -/
theorem leading_of_digits (s : List Char)
    (h : (strtol_sign (s.dropWhile isspace)).2.takeWhile isdigit ≠ []) :
    LeadingNumeral s (strtol_sign (s.dropWhile isspace)).1
      ((strtol_sign (s.dropWhile isspace)).2.takeWhile isdigit)
      ((strtol_sign (s.dropWhile isspace)).2.dropWhile isdigit) := by
  obtain ⟨sign, hsplit, hsign⟩ := strtol_sign_split (s.dropWhile isspace)
  refine ⟨s.takeWhile isspace, sign, ?_, ?_, hsign, h, ?_, ?_⟩
  · rw [List.takeWhile_append_dropWhile, ← hsplit, List.takeWhile_append_dropWhile]
  · intro c hc
    exact (List.mem_takeWhile_imp hc)
  · intro c hc
    exact (List.mem_takeWhile_imp hc)
  · intro c hc
    generalize (strtol_sign (s.dropWhile isspace)).2 = u at hc
    induction u with
    | nil => simp at hc
    | cons a u ih =>
      by_cases ha : isdigit a = true
      · simp only [List.dropWhile_cons, ha, if_true] at hc
        exact ih hc
      · simp only [List.dropWhile_cons, ha] at hc
        simp at hc
        subst hc
        simpa using ha

/-! ## `safe_atoi`: when it returns and what it returns -/

theorem to_int_of_range {x : Int} (h1 : INT_MIN ≤ x) (h2 : x ≤ INT_MAX) : to_int x = x := by
  unfold INT_MIN at h1
  unfold INT_MAX at h2
  unfold to_int
  omega

theorem to_int_range (x : Int) : INT_MIN ≤ to_int x ∧ to_int x ≤ INT_MAX := by
  unfold INT_MIN INT_MAX to_int
  omega

/-- The outcome of `safe_atoi` in terms of the sign and digits `strtol` reads. -/
theorem safe_atoi_eq (s : String) :
    safe_atoi s =
      if (strtol_sign (s.data.dropWhile isspace)).2.takeWhile isdigit = [] ∨
          signed_value (strtol_sign (s.data.dropWhile isspace)).1
            ((strtol_sign (s.data.dropWhile isspace)).2.takeWhile isdigit) < 0 ∨
          LONG_MAX < signed_value (strtol_sign (s.data.dropWhile isspace)).1
            ((strtol_sign (s.data.dropWhile isspace)).2.takeWhile isdigit)
      then Except.error ("invalid number: '" ++ s ++ "'")
      else Except.ok (to_int (signed_value (strtol_sign (s.data.dropWhile isspace)).1
            ((strtol_sign (s.data.dropWhile isspace)).2.takeWhile isdigit))) := by
  unfold safe_atoi strtol
  simp only []
  generalize (strtol_sign (s.data.dropWhile isspace)).1 = neg
  generalize (strtol_sign (s.data.dropWhile isspace)).2 = u
  by_cases hds : u.takeWhile isdigit = []
  · simp [hds]
  · have hlen : 0 < (u.takeWhile isdigit).length := List.length_pos.mpr hds
    simp only [hds, if_false, false_or]
    by_cases h1 : signed_value neg (u.takeWhile isdigit) > LONG_MAX
    · have h1' : LONG_MAX < signed_value neg (u.takeWhile isdigit) := h1
      simp [h1, h1', ERANGE]
    · by_cases h2 : signed_value neg (u.takeWhile isdigit) < LONG_MIN
      · have h3 : signed_value neg (u.takeWhile isdigit) < 0 := by
          unfold LONG_MIN at h2; omega
        simp [h1, h2, h3, ERANGE]
      · have h1' : ¬ LONG_MAX < signed_value neg (u.takeWhile isdigit) := h1
        simp only [h1, h2, if_false, h1', or_false]
        have he : ¬ (s.data.length - u.length + (u.takeWhile isdigit).length = 0) := by omega
        simp only [ne_eq, not_true_eq_false, he, false_or]

/-- Outcome of `safe_atoi` on a string that begins with a numeral. -/
theorem safe_atoi_of_leading (s : String) {neg : Bool} {ds rest : List Char}
    (h : LeadingNumeral s.data neg ds rest) :
    safe_atoi s =
      if signed_value neg ds < 0 ∨ LONG_MAX < signed_value neg ds
      then Except.error ("invalid number: '" ++ s ++ "'")
      else Except.ok (to_int (signed_value neg ds)) := by
  obtain ⟨h1, _, h3⟩ := leading_parts h
  have hne : ds ≠ [] := by
    obtain ⟨_, _, _, _, _, hne, _⟩ := h
    exact hne
  rw [safe_atoi_eq, h1, h3]
  simp [hne]

/-- Outcome of `safe_atoi` on a string that does not begin with a numeral. -/
theorem safe_atoi_of_not_leading (s : String)
    (h : ¬ ∃ neg ds rest, LeadingNumeral s.data neg ds rest) :
    safe_atoi s = Except.error ("invalid number: '" ++ s ++ "'") := by
  have hds : (strtol_sign (s.data.dropWhile isspace)).2.takeWhile isdigit = [] := by
    by_contra hne
    exact h ⟨_, _, _, leading_of_digits s.data hne⟩
  rw [safe_atoi_eq]
  simp [hds]

/-- A string that is wholly a numeral begins with that numeral, and nothing follows it. -/
theorem whole_leading {s : List Char} (h : is_decimal_numeral s = true) :
    LeadingNumeral s (strtol_sign s).1 (strtol_sign s).2 [] := by
  cases s with
  | nil => simp [is_decimal_numeral] at h
  | cons c r =>
    by_cases h1 : c = '-'
    · subst h1
      simp only [is_decimal_numeral, true_or, if_true, Bool.and_eq_true, Bool.not_eq_true',
        List.isEmpty_eq_false, List.all_eq_true] at h
      refine ⟨[], ['-'], by simp [strtol_sign], by simp, Or.inr (Or.inr ⟨rfl, by simp [strtol_sign]⟩),
        ?_, ?_, by simp⟩
      · simpa [strtol_sign] using h.1
      · simpa [strtol_sign] using h.2
    · by_cases h2 : c = '+'
      · subst h2
        simp only [is_decimal_numeral, or_true, if_true, Bool.and_eq_true, Bool.not_eq_true',
          List.isEmpty_eq_false, List.all_eq_true] at h
        refine ⟨[], ['+'], by simp [strtol_sign], by simp,
          Or.inr (Or.inl ⟨rfl, by simp [strtol_sign]⟩), ?_, ?_, by simp⟩
        · simpa [strtol_sign] using h.1
        · simpa [strtol_sign] using h.2
      · simp only [is_decimal_numeral, h1, h2, or_self, if_false, Bool.and_eq_true,
          List.all_eq_true] at h
        refine ⟨[], [], by simp [strtol_sign, h1, h2], by simp,
          Or.inl ⟨rfl, by simp [strtol_sign, h1, h2]⟩, by simp [strtol_sign, h1, h2], ?_, by simp⟩
        intro x hx
        simp only [strtol_sign, h1, h2, if_false, List.mem_cons] at hx
        rcases hx with rfl | hx
        · exact h.1
        · exact h.2 x hx

/-- C7, as stated, does not hold: `1.5` is accepted and returned as 1,
`4294967296` is accepted and returned as 0, and `4294967295` is accepted and
returned as -1. -/
theorem safe_atoi_truncates :
    safe_atoi "1.5" = Except.ok 1 ∧ whole_value "1.5".data = none ∧
    safe_atoi "4294967296" = Except.ok 0 ∧ whole_value "4294967296".data = some 4294967296 ∧
    safe_atoi "4294967295" = Except.ok (-1) ∧
    ¬ (∀ (s : String) (n : Int), safe_atoi s = Except.ok n →
        0 ≤ n ∧ whole_value s.data = some n) := by
  refine ⟨by rfl, by decide, by rfl, by decide, by rfl, ?_⟩
  intro h
  have h1 := (h "1.5" 1 (by rfl)).2
  revert h1
  decide

/-- C7, amended: when `safe_atoi` returns, the argument begins with a numeral
of non-negative value, and if that value is at most `INT_MAX` the `int`
returned is that value, whatever follows the numeral. A string that is
wholly a numeral with a value from 0 to `INT_MAX` is returned as its value.
A numeral above `LONG_MAX` is a failure. -/
theorem safe_atoi_value (s : String) :
    (∀ n, safe_atoi s = Except.ok n →
      ∃ neg ds rest, LeadingNumeral s.data neg ds rest ∧ 0 ≤ signed_value neg ds ∧
        (signed_value neg ds ≤ INT_MAX → n = signed_value neg ds ∧ 0 ≤ n)) ∧
    (∀ v, whole_value s.data = some v → 0 ≤ v → v ≤ INT_MAX → safe_atoi s = Except.ok v) ∧
    (∀ neg ds rest, LeadingNumeral s.data neg ds rest → LONG_MAX < signed_value neg ds →
      safe_atoi s = Except.error ("invalid number: '" ++ s ++ "'")) := by
  refine ⟨?_, ?_, ?_⟩
  · intro n hn
    by_cases hex : ∃ neg ds rest, LeadingNumeral s.data neg ds rest
    · obtain ⟨neg, ds, rest, hl⟩ := hex
      refine ⟨neg, ds, rest, hl, ?_⟩
      rw [safe_atoi_of_leading s hl] at hn
      by_cases hc : signed_value neg ds < 0 ∨ LONG_MAX < signed_value neg ds
      · rw [if_pos hc] at hn; cases hn
      · rw [if_neg hc] at hn
        have hn' : to_int (signed_value neg ds) = n := by injection hn
        refine ⟨by omega, fun hle => ?_⟩
        have h0 : 0 ≤ signed_value neg ds := by omega
        rw [to_int_of_range (by unfold INT_MIN; omega) hle] at hn'
        exact ⟨hn'.symm, by omega⟩
    · rw [safe_atoi_of_not_leading s hex] at hn
      cases hn
  · intro v hv h0 h1
    unfold whole_value at hv
    by_cases hd : is_decimal_numeral s.data = true
    · rw [if_pos hd] at hv
      have hv' : signed_value (strtol_sign s.data).1 (strtol_sign s.data).2 = v := by
        injection hv
      rw [safe_atoi_of_leading s (whole_leading hd), hv', if_neg, to_int_of_range]
      · unfold INT_MIN; omega
      · exact h1
      · unfold INT_MAX at h1; unfold LONG_MAX; omega
    · rw [if_neg hd] at hv
      cases hv
  · intro neg ds rest hl hbig
    rw [safe_atoi_of_leading s hl, if_pos (Or.inr hbig)]

/-- The witness of `safe_atoi_value`: `42` is returned as 42, `7 cores` as 7,
and `9223372036854775808` is rejected. -/
theorem safe_atoi_value_witness :
    safe_atoi "42" = Except.ok 42 ∧
    (∃ neg ds rest, LeadingNumeral "7 cores".data neg ds rest ∧ 0 ≤ signed_value neg ds ∧
        (signed_value neg ds ≤ INT_MAX → (7 : Int) = signed_value neg ds ∧ 0 ≤ (7 : Int))) ∧
    safe_atoi "9223372036854775808" =
      Except.error "invalid number: '9223372036854775808'" := by
  refine ⟨(safe_atoi_value "42").2.1 42 (by decide) (by decide) (by decide),
    (safe_atoi_value "7 cores").1 7 (by rfl),
    (safe_atoi_value "9223372036854775808").2.2 false "9223372036854775808".data [] ?_ (by decide)⟩
  exact ⟨[], [], rfl, by simp, Or.inl ⟨rfl, rfl⟩, by simp, by decide, by simp⟩

/-! ## What `printf("%d")` writes -/

theorem digitChar_isDigit (n : Nat) (h : n < 10) : (Nat.digitChar n).isDigit = true := by
  interval_cases n <;> decide

theorem toDigitsCore_digits (fuel : Nat) : ∀ (n : Nat) (ds : List Char),
    (∀ c ∈ ds, c.isDigit = true) → ∀ c ∈ Nat.toDigitsCore 10 fuel n ds, c.isDigit = true := by
  induction fuel with
  | zero => intro n ds h; simpa [Nat.toDigitsCore] using h
  | succ f ih =>
    intro n ds h
    have hd : (Nat.digitChar (n % 10)).isDigit = true :=
      digitChar_isDigit _ (Nat.mod_lt _ (by decide))
    have hcons : ∀ c ∈ Nat.digitChar (n % 10) :: ds, c.isDigit = true := by
      intro c hc
      rcases List.mem_cons.mp hc with rfl | hc
      · exact hd
      · exact h c hc
    simp only [Nat.toDigitsCore]
    split
    · exact hcons
    · exact ih _ _ hcons

theorem repr_digits (m : Nat) : ∀ c ∈ (Nat.repr m).data, c.isDigit = true := by
  intro c hc
  exact toDigitsCore_digits _ _ [] (by simp) c hc

/-- A decimal rendering consists of digits and at most a minus sign. -/
theorem int_toString_chars (n : Int) :
    ∀ c ∈ (toString n).data, c.isDigit = true ∨ c = '-' := by
  cases n with
  | ofNat m =>
    intro c hc
    exact Or.inl (repr_digits m c hc)
  | negSucc m =>
    intro c hc
    have e : (toString (Int.negSucc m)).data = '-' :: (Nat.repr (m + 1)).data := rfl
    rw [e] at hc
    rcases List.mem_cons.mp hc with rfl | hc
    · exact Or.inr rfl
    · exact Or.inl (repr_digits _ c hc)

/-- The text `fprintf(stdout, "%d\n", cpus)` writes is one line. -/
theorem line_count_fprintf_d (n : Int) : line_count (fprintf_d n) = 1 := by
  have hnl : ('\n' : Char) ∉ (toString n).data := by
    intro hc
    rcases int_toString_chars n _ hc with h | h
    · revert h; decide
    · revert h; decide
  unfold line_count fprintf_d
  rw [String.data_append, List.count_append, List.count_eq_zero_of_not_mem hnl]
  rfl

theorem fprintf_d_ne_usage (n : Int) : fprintf_d n ≠ usage_text := by
  intro h
  have h1 := line_count_fprintf_d n
  rw [h] at h1
  revert h1
  decide

theorem fprintf_d_ne_version (n : Int) : fprintf_d n ≠ version_text := by
  intro h
  have hc : ('n' : Char) ∈ (fprintf_d n).data := by rw [h]; decide
  unfold fprintf_d at hc
  rw [String.data_append, List.mem_append] at hc
  rcases hc with hc | hc
  · rcases int_toString_chars n _ hc with h | h
    · revert h; decide
    · revert h; decide
  · revert hc; decide

/-! ## The option loop -/

/-- On accepted options the loop runs to its end: each flag met is set to 1,
the others keep their value, and `inum` is the count of the last `--ignore`. -/
theorem getopt_loop_accepted (gs : List GetoptCall) :
    ∀ (opts : arg_opts) (inum : Int), (∀ g ∈ gs, accepted g = true) →
      getopt_loop gs opts inum = Except.ok
        (⟨if given OPT_ALL gs then 1 else opts.aopt,
          if given OPT_ONLINE gs then 1 else opts.oopt,
          if given OPT_USABLE gs then 1 else opts.uopt,
          if given OPT_IGNORE gs then 1 else opts.iopt,
          if given OPT_HELP gs then 1 else opts.hopt,
          if given OPT_VERSION gs then 1 else opts.vopt⟩, final_inum gs inum) := by
  induction gs with
  | nil => intro opts inum _; rfl
  | cons g rest ih =>
    intro opts inum h
    have hg := h g (List.mem_cons_self _ _)
    have hr : ∀ x ∈ rest, accepted x = true := fun x hx => h x (List.mem_cons_of_mem _ hx)
    simp only [accepted, Bool.or_eq_true, Bool.and_eq_true, decide_eq_true_eq] at hg
    rcases hg with ((((hc | hc) | hc) | hc) | hc) | ⟨hc, hs⟩
    all_goals unfold getopt_loop final_inum
    · simp [hc, ih _ _ hr, given, OPT_ALL, OPT_ONLINE, OPT_USABLE, OPT_IGNORE, OPT_HELP,
        OPT_VERSION] at *
    · simp [hc, ih _ _ hr, given, OPT_ALL, OPT_ONLINE, OPT_USABLE, OPT_IGNORE, OPT_HELP,
        OPT_VERSION] at *
    · simp [hc, ih _ _ hr, given, OPT_ALL, OPT_ONLINE, OPT_USABLE, OPT_IGNORE, OPT_HELP,
        OPT_VERSION] at *
    · simp [hc, ih _ _ hr, given, OPT_ALL, OPT_ONLINE, OPT_USABLE, OPT_IGNORE, OPT_HELP,
        OPT_VERSION] at *
    · simp [hc, ih _ _ hr, given, OPT_ALL, OPT_ONLINE, OPT_USABLE, OPT_IGNORE, OPT_HELP,
        OPT_VERSION] at *
    · cases hsa : safe_atoi g.optarg with
      | error msg => rw [hsa] at hs; cases hs
      | ok n =>
        simp [hc, hsa, ih _ _ hr, given, OPT_ALL, OPT_ONLINE, OPT_USABLE, OPT_IGNORE, OPT_HELP,
          OPT_VERSION] at *

theorem final_inum_no_ignore (gs : List GetoptCall) :
    ∀ inum, given OPT_IGNORE gs = false → final_inum gs inum = inum := by
  induction gs with
  | nil => intro inum _; rfl
  | cons g rest ih =>
    intro inum h
    simp only [given, List.any_cons, Bool.or_eq_false_iff, decide_eq_false_iff_not] at h
    unfold final_inum
    rw [if_neg h.1]
    exact ih inum (by simpa [given] using h.2)

theorem final_inum_last (pre post : List GetoptCall) (s : String) (n : Int)
    (hs : safe_atoi s = Except.ok n) (hpost : given OPT_IGNORE post = false) :
    ∀ inum, final_inum (pre ++ ⟨OPT_IGNORE, s⟩ :: post) inum = n := by
  induction pre with
  | nil =>
    intro inum
    simp only [List.nil_append, final_inum, if_true, hs]
    exact final_inum_no_ignore post n hpost
  | cons g rest ih =>
    intro inum
    simp only [List.cons_append, final_inum]
    split
    · split
      · exact ih _
      · exact ih _
    · exact ih _

/-- With arguments that are all accepted, `main` resolves the flags given. -/
theorem main_accepted (argc : Int) (gs : List GetoptCall) (os : OS) (h2 : 2 ≤ argc)
    (h : ∀ g ∈ gs, accepted g = true) :
    main argc gs os =
      main_resolve ⟨if given OPT_ALL gs then 1 else 0, if given OPT_ONLINE gs then 1 else 0,
        if given OPT_USABLE gs then 1 else 0, if given OPT_IGNORE gs then 1 else 0,
        if given OPT_HELP gs then 1 else 0, if given OPT_VERSION gs then 1 else 0⟩
        (final_inum gs 0) os := by
  unfold main
  rw [if_neg (by omega), getopt_loop_accepted gs _ _ h]

/-- The branches of `main` after the loop, as a table over the six flags. -/
theorem main_resolve_table (a o u i h v : Bool) (inum : Int) (os : OS) :
    main_resolve ⟨if a then 1 else 0, if o then 1 else 0, if u then 1 else 0,
        if i then 1 else 0, if h then 1 else 0, if v then 1 else 0⟩ inum os =
      if i = true then
        report (adjusted inum
          (if u = true ∨ (a = false ∧ o = false ∧ u = false) then count_usable_cpus os
           else if a = true then get_count_type_cpus os _SC_NPROCESSORS_CONF
           else get_count_type_cpus os _SC_NPROCESSORS_ONLN))
      else if a = true then report (get_count_type_cpus os _SC_NPROCESSORS_CONF)
      else if o = true then report (get_count_type_cpus os _SC_NPROCESSORS_ONLN)
      else if u = true then report (count_usable_cpus os)
      else if h = true then { stdout := usage_text, stderr := "", status := EXIT_SUCCESS }
      else if v = true then { stdout := version_text, stderr := "", status := EXIT_SUCCESS }
      else report (count_usable_cpus os) := by
  cases a <;> cases o <;> cases u <;> cases i <;> cases h <;> cases v <;>
    simp [main_resolve, report, adjusted, show_usage] <;>
    split <;> simp

theorem report_cases (q : Except String Int) :
    ((report q).status = EXIT_FAILURE ∧ (report q).stdout = "" ∧ ∃ msg, q = Except.error msg) ∨
    ((report q).status = EXIT_SUCCESS ∧ ∃ n, q = Except.ok n ∧ (report q).stdout = fprintf_d n) := by
  cases q with
  | error msg => exact Or.inl ⟨rfl, rfl, msg, rfl⟩
  | ok n => exact Or.inr ⟨rfl, n, rfl, rfl⟩

theorem report_stdout_ne_usage (q : Except String Int) : (report q).stdout ≠ usage_text := by
  cases q with
  | error msg => simp only [report, die]; decide
  | ok n => exact fprintf_d_ne_usage n

theorem report_stdout_ne_version (q : Except String Int) : (report q).stdout ≠ version_text := by
  cases q with
  | error msg => simp only [report, die]; decide
  | ok n => exact fprintf_d_ne_version n

/-- A process that ends inside the option loop has written nothing on
standard output and exits with `EXIT_FAILURE`. -/
theorem getopt_loop_error (gs : List GetoptCall) :
    ∀ (opts : arg_opts) (inum : Int) (p : Proc), getopt_loop gs opts inum = Except.error p →
      p.status = EXIT_FAILURE ∧ p.stdout = "" := by
  induction gs with
  | nil => intro opts inum p h; cases h
  | cons g rest ih =>
    intro opts inum p h
    unfold getopt_loop at h
    split at h
    · cases h
    · split at h
      · exact ih _ _ _ h
      · split at h
        · exact ih _ _ _ h
        · split at h
          · exact ih _ _ _ h
          · split at h
            · split at h
              · injection h with h; subst h; exact ⟨rfl, rfl⟩
              · exact ih _ _ _ h
            · split at h
              · exact ih _ _ _ h
              · split at h
                · exact ih _ _ _ h
                · injection h with h; subst h; exact ⟨rfl, rfl⟩

theorem count_usable_cpus_range (os : OS) (n : Int) (h : count_usable_cpus os = Except.ok n) :
    INT_MIN ≤ n ∧ n ≤ INT_MAX := by
  unfold count_usable_cpus at h
  split at h
  · cases h
  · injection h with h; subst h; exact to_int_range _

theorem get_count_type_cpus_range (os : OS) (q n : Int)
    (h : get_count_type_cpus os q = Except.ok n) : INT_MIN ≤ n ∧ n ≤ INT_MAX := by
  unfold get_count_type_cpus at h
  simp only [] at h
  split at h
  · cases h
  · injection h with h; subst h; exact to_int_range _

theorem ignore_base_range (gs : List GetoptCall) (os : OS) (n : Int)
    (h : ignore_base gs os = Except.ok n) : INT_MIN ≤ n ∧ n ≤ INT_MAX := by
  unfold ignore_base at h
  split at h
  · exact count_usable_cpus_range os n h
  · split at h
    · exact get_count_type_cpus_range os _ n h
    · exact get_count_type_cpus_range os _ n h

/-- Whatever the flags, the branches after the loop either fail without
output or succeed with a complete output. -/
theorem main_resolve_cases (opts : arg_opts) (inum : Int) (os : OS) :
    ((main_resolve opts inum os).status = EXIT_FAILURE ∧ (main_resolve opts inum os).stdout = "") ∨
    ((main_resolve opts inum os).status = EXIT_SUCCESS ∧
      complete_output (main_resolve opts inum os).stdout) := by
  unfold main_resolve
  simp only []
  repeat' split
  all_goals first
    | exact Or.inl ⟨rfl, rfl⟩
    | exact Or.inr ⟨rfl, Or.inl ⟨_, rfl⟩⟩
    | exact Or.inr ⟨rfl, Or.inr (Or.inl rfl)⟩
    | exact Or.inr ⟨rfl, Or.inr (Or.inr rfl)⟩

theorem given_insert (k : Int) (pre post : List GetoptCall) (g : GetoptCall) :
    given k (pre ++ g :: post) = (given k (pre ++ post) || decide (g.c = k)) := by
  simp only [given, List.any_append, List.any_cons]
  cases List.any pre (fun g => decide (g.c = k)) <;>
    cases List.any post (fun g => decide (g.c = k)) <;> cases decide (g.c = k) <;> rfl

theorem accepted_insert (pre post : List GetoptCall) (g : GetoptCall)
    (h : ∀ x ∈ pre ++ post, accepted x = true) (hg : accepted g = true) :
    ∀ x ∈ pre ++ g :: post, accepted x = true := by
  intro x hx
  rcases List.mem_append.mp hx with hx | hx
  · exact h x (List.mem_append_left _ hx)
  · rcases List.mem_cons.mp hx with rfl | hx
    · exact hg
    · exact h x (List.mem_append_right _ hx)

/-! ## Claims about `main` -/

/-- C1, at the failing input: with 4 usable CPUs, `--ignore=4` makes `main`
print 0, while `max(1, base - ignore)` is 1 there. -/
theorem ignore_equal_to_base_prints_zero :
    main 2 [⟨OPT_IGNORE, "4"⟩] example_os = ⟨"0\n", "", EXIT_SUCCESS⟩ ∧
    count_usable_cpus example_os = Except.ok 4 ∧
    fprintf_d (max 1 (4 - 4)) = "1\n" := by
  refine ⟨by rfl, by rfl, by rfl⟩

/-- C2, at the failing input: with 8 configured CPUs, `--all --ignore=8`
makes `main` print 0, a number below 1. -/
theorem ignore_all_prints_below_one :
    main 3 [⟨OPT_ALL, ""⟩, ⟨OPT_IGNORE, "8"⟩] example_os = ⟨"0\n", "", EXIT_SUCCESS⟩ ∧
    get_count_type_cpus example_os _SC_NPROCESSORS_CONF = Except.ok 8 ∧
    safe_atoi "8" = Except.ok 8 := by
  refine ⟨by rfl, by rfl, by rfl⟩

/-- C3: the decision table of `main`. Without arguments the usable count is
printed. With arguments, all of them accepted: without `--ignore`, `--all`
prints the configured count, else `--online` the online count, else
`--usable` the usable count; the usage text is printed exactly when none of
ignore, all, online, usable is given and `--help` is; the version line
exactly when, in addition, `--help` is not given and `--version` is; and with
no flag at all the usable count is printed. -/
theorem main_decision_table (argc : Int) (gs : List GetoptCall) (os : OS) :
    (argc < 2 → main argc gs os = report (count_usable_cpus os)) ∧
    (2 ≤ argc → (∀ g ∈ gs, accepted g = true) →
      (given OPT_IGNORE gs = false → given OPT_ALL gs = true →
        main argc gs os = report (get_count_type_cpus os _SC_NPROCESSORS_CONF)) ∧
      (given OPT_IGNORE gs = false → given OPT_ALL gs = false → given OPT_ONLINE gs = true →
        main argc gs os = report (get_count_type_cpus os _SC_NPROCESSORS_ONLN)) ∧
      (given OPT_IGNORE gs = false → given OPT_ALL gs = false → given OPT_ONLINE gs = false →
        given OPT_USABLE gs = true → main argc gs os = report (count_usable_cpus os)) ∧
      ((main argc gs os).stdout = usage_text ↔
        given OPT_IGNORE gs = false ∧ given OPT_ALL gs = false ∧ given OPT_ONLINE gs = false ∧
          given OPT_USABLE gs = false ∧ given OPT_HELP gs = true) ∧
      ((main argc gs os).stdout = version_text ↔
        given OPT_IGNORE gs = false ∧ given OPT_ALL gs = false ∧ given OPT_ONLINE gs = false ∧
          given OPT_USABLE gs = false ∧ given OPT_HELP gs = false ∧
          given OPT_VERSION gs = true) ∧
      (given OPT_IGNORE gs = false → given OPT_ALL gs = false → given OPT_ONLINE gs = false →
        given OPT_USABLE gs = false → given OPT_HELP gs = false → given OPT_VERSION gs = false →
        main argc gs os = report (count_usable_cpus os))) := by
  refine ⟨?_, ?_⟩
  · intro h
    unfold main
    rw [if_pos h]
    cases count_usable_cpus os <;> rfl
  · intro h2 hacc
    rw [main_accepted argc gs os h2 hacc, main_resolve_table]
    have hvu : version_text ≠ usage_text := by decide
    have huv : usage_text ≠ version_text := by decide
    generalize given OPT_ALL gs = a
    generalize given OPT_ONLINE gs = o
    generalize given OPT_USABLE gs = u
    generalize given OPT_IGNORE gs = i
    generalize given OPT_HELP gs = h
    generalize given OPT_VERSION gs = v
    cases a <;> cases o <;> cases u <;> cases i <;> cases h <;> cases v <;>
      simp [report_stdout_ne_usage, report_stdout_ne_version, hvu, huv]

/-- The witness of `main_decision_table`: no argument, and `--online` alone. -/
theorem main_decision_table_witness :
    main 1 [] example_os = report (count_usable_cpus example_os) ∧
    main 2 [⟨OPT_ONLINE, ""⟩] example_os =
      report (get_count_type_cpus example_os _SC_NPROCESSORS_ONLN) :=
  ⟨(main_decision_table 1 [] example_os).1 (by decide),
   ((main_decision_table 2 [⟨OPT_ONLINE, ""⟩] example_os).2 (by decide) (by decide)).2.1
      (by decide) (by decide) (by decide)⟩

/-- C4: when `--ignore` is given (and every argument is accepted), what
`main` prints is the ignore adjustment, by the count of the last `--ignore`,
of the usable count if `--usable` is given or none of `--all`, `--online`,
`--usable` is; otherwise of the configured count if `--all` is given;
otherwise of the online count. Neither `--help` nor `--version` nor the
direct printing of the three counts takes place. -/
theorem ignore_selects_base (argc : Int) (gs : List GetoptCall) (os : OS) (h2 : 2 ≤ argc)
    (hacc : ∀ g ∈ gs, accepted g = true) (hi : given OPT_IGNORE gs = true) :
    ((given OPT_USABLE gs = true ∨
        (given OPT_ALL gs = false ∧ given OPT_ONLINE gs = false ∧ given OPT_USABLE gs = false)) →
      main argc gs os = report (adjusted (final_inum gs 0) (count_usable_cpus os))) ∧
    (given OPT_USABLE gs = false → given OPT_ALL gs = true →
      main argc gs os =
        report (adjusted (final_inum gs 0) (get_count_type_cpus os _SC_NPROCESSORS_CONF))) ∧
    (given OPT_USABLE gs = false → given OPT_ALL gs = false → given OPT_ONLINE gs = true →
      main argc gs os =
        report (adjusted (final_inum gs 0) (get_count_type_cpus os _SC_NPROCESSORS_ONLN))) := by
  rw [main_accepted argc gs os h2 hacc, main_resolve_table, hi]
  generalize given OPT_ALL gs = a
  generalize given OPT_ONLINE gs = o
  generalize given OPT_USABLE gs = u
  cases a <;> cases o <;> cases u <;> simp

/-- The witness of `ignore_selects_base`: `--help --all --ignore=3` on the
example system prints the configured count less 3. -/
theorem ignore_selects_base_witness :
    main 4 [⟨OPT_HELP, ""⟩, ⟨OPT_ALL, ""⟩, ⟨OPT_IGNORE, "3"⟩] example_os =
      report (adjusted (final_inum [⟨OPT_HELP, ""⟩, ⟨OPT_ALL, ""⟩, ⟨OPT_IGNORE, "3"⟩] 0)
        (get_count_type_cpus example_os _SC_NPROCESSORS_CONF)) :=
  (ignore_selects_base 4 [⟨OPT_HELP, ""⟩, ⟨OPT_ALL, ""⟩, ⟨OPT_IGNORE, "3"⟩] example_os
    (by decide) (by decide) (by decide)).2.1 (by decide) (by decide)

/-- C5, at the failing inputs: with 6 online CPUs, `--online --ignore=4294967296`
makes `main` print 6 and `--online --ignore=4294967295` makes it print 7,
while both counts are accepted by `safe_atoi` and exceed the base, so that 1
is the number to report. -/
theorem ignore_beyond_int_not_clamped :
    main 3 [⟨OPT_ONLINE, ""⟩, ⟨OPT_IGNORE, "4294967296"⟩] example_os =
      ⟨"6\n", "", EXIT_SUCCESS⟩ ∧
    main 3 [⟨OPT_ONLINE, ""⟩, ⟨OPT_IGNORE, "4294967295"⟩] example_os =
      ⟨"7\n", "", EXIT_SUCCESS⟩ ∧
    get_count_type_cpus example_os _SC_NPROCESSORS_ONLN = Except.ok 6 ∧
    whole_value "4294967296".data = some 4294967296 ∧
    whole_value "4294967295".data = some 4294967295 ∧
    safe_atoi "4294967296" = Except.ok 0 ∧
    safe_atoi "4294967295" = Except.ok (-1) ∧
    fprintf_d (if (4294967296 : Int) > 6 then 1 else 6 - 4294967296) = "1\n" := by
  refine ⟨by rfl, by rfl, by rfl, by decide, by decide, by rfl, by rfl, by rfl⟩

/-- In terms of the `int` that `safe_atoi` returns: when the last `--ignore`
carries an argument that `safe_atoi` returns as the non-negative `inum`, and
the base query returns `base`, `main` prints 1 if `inum > base` and
`base - inum` otherwise. -/
theorem ignore_adjustment (argc : Int) (pre post : List GetoptCall) (s : String) (os : OS)
    (inum base : Int) (h2 : 2 ≤ argc)
    (hpre : ∀ g ∈ pre, accepted g = true) (hpost : ∀ g ∈ post, accepted g = true)
    (hlast : given OPT_IGNORE post = false)
    (hs : safe_atoi s = Except.ok inum) (h0 : 0 ≤ inum)
    (hbase : ignore_base (pre ++ ⟨OPT_IGNORE, s⟩ :: post) os = Except.ok base) :
    main argc (pre ++ ⟨OPT_IGNORE, s⟩ :: post) os =
      ⟨fprintf_d (if inum > base then 1 else base - inum), "", EXIT_SUCCESS⟩ := by
  have hg : accepted ⟨OPT_IGNORE, s⟩ = true := by
    simp [accepted, hs, OPT_ALL, OPT_ONLINE, OPT_USABLE, OPT_IGNORE, OPT_HELP, OPT_VERSION]
  have hacc : ∀ x ∈ pre ++ ⟨OPT_IGNORE, s⟩ :: post, accepted x = true := by
    apply accepted_insert pre post _ _ hg
    intro x hx
    rcases List.mem_append.mp hx with hx | hx
    · exact hpre x hx
    · exact hpost x hx
  have hi : given OPT_IGNORE (pre ++ ⟨OPT_IGNORE, s⟩ :: post) = true := by
    rw [given_insert]; simp
  have hr := ignore_base_range _ _ _ hbase
  rw [main_accepted argc _ os h2 hacc, main_resolve_table, hi,
    final_inum_last pre post s inum hs hlast]
  unfold ignore_base at hbase
  simp only [if_true]
  rw [hbase]
  simp only [report, adjusted]
  by_cases hgt : inum > base
  · simp [hgt]
  · have : to_int (base - inum) = base - inum :=
      to_int_of_range (by unfold INT_MIN; omega) (by unfold INT_MAX at *; omega)
    simp [hgt, this]

/-- Two runs covered by `ignore_adjustment`: `--all --ignore=2` with 8
configured CPUs prints 6, and `--online --ignore=100` with 6 online CPUs
prints 1. -/
theorem ignore_adjustment_examples :
    main 3 [⟨OPT_ALL, ""⟩, ⟨OPT_IGNORE, "2"⟩] example_os = ⟨"6\n", "", EXIT_SUCCESS⟩ ∧
    main 3 [⟨OPT_ONLINE, ""⟩, ⟨OPT_IGNORE, "100"⟩] example_os = ⟨"1\n", "", EXIT_SUCCESS⟩ :=
  ⟨ignore_adjustment 3 [⟨OPT_ALL, ""⟩] [] "2" example_os 2 8 (by decide) (by decide)
      (by decide) (by decide) (by rfl) (by decide) (by rfl),
   ignore_adjustment 3 [⟨OPT_ONLINE, ""⟩] [] "100" example_os 100 6 (by decide) (by decide)
      (by decide) (by decide) (by rfl) (by decide) (by rfl)⟩

theorem adjusted_zero (q : Except String Int)
    (h : ∀ n, q = Except.ok n → 0 ≤ n ∧ n ≤ INT_MAX) : adjusted 0 q = q := by
  cases q with
  | error msg => rfl
  | ok n =>
    obtain ⟨h0, h1⟩ := h n rfl
    have e : to_int (n - 0) = n := by
      rw [Int.sub_zero]
      exact to_int_of_range (by unfold INT_MIN; omega) h1
    simp only [adjusted, e]
    rw [if_neg (by omega)]

/-- C8, as stated, does not hold: `--help` succeeds and writes two lines. -/
theorem help_writes_two_lines :
    (main 2 [⟨OPT_HELP, ""⟩] example_os).status = EXIT_SUCCESS ∧
    line_count (main 2 [⟨OPT_HELP, ""⟩] example_os).stdout = 2 ∧
    ¬ (∀ (argc : Int) (gs : List GetoptCall) (os : OS),
        (main argc gs os).status = EXIT_SUCCESS → line_count (main argc gs os).stdout = 1) := by
  refine ⟨by decide, by decide, ?_⟩
  intro h
  have h1 := h 2 [⟨OPT_HELP, ""⟩] example_os (by decide)
  revert h1
  decide

/-- C8, amended: on every successful run the standard output is a decimal
integer followed by a newline (one line), or the version line `nproc 0.1`
(one line), or the usage text, which is two lines. `--version` alone prints
exactly the version line and `--help` alone exactly the usage text. -/
theorem successful_output (argc : Int) (gs : List GetoptCall) (os : OS) :
    ((main argc gs os).status = EXIT_SUCCESS →
      ((∃ n : Int, (main argc gs os).stdout = toString n ++ "\n") ∧
          line_count (main argc gs os).stdout = 1) ∨
        ((main argc gs os).stdout = "nproc 0.1\n" ∧ line_count (main argc gs os).stdout = 1) ∨
        ((main argc gs os).stdout = usage_text ∧ line_count (main argc gs os).stdout = 2)) ∧
    (2 ≤ argc → main argc [⟨OPT_VERSION, ""⟩] os = ⟨"nproc 0.1\n", "", EXIT_SUCCESS⟩) ∧
    (2 ≤ argc → main argc [⟨OPT_HELP, ""⟩] os = ⟨usage_text, "", EXIT_SUCCESS⟩) := by
  refine ⟨?_, ?_, ?_⟩
  · intro hs
    have hcases : ((main argc gs os).status = EXIT_FAILURE ∧ (main argc gs os).stdout = "") ∨
        ((main argc gs os).status = EXIT_SUCCESS ∧ complete_output (main argc gs os).stdout) := by
      unfold main
      split
      · split
        · exact Or.inl ⟨rfl, rfl⟩
        · exact Or.inr ⟨rfl, Or.inl ⟨_, rfl⟩⟩
      · split
        · rename_i p hp
          exact Or.inl (getopt_loop_error gs _ _ p hp)
        · exact main_resolve_cases _ _ _
    rcases hcases with ⟨hf, _⟩ | ⟨_, hc⟩
    · exact absurd (hs.symm.trans hf) (by decide)
    · rcases hc with ⟨n, hn⟩ | hu | hv
      · exact Or.inl ⟨⟨n, hn⟩, by rw [hn]; exact line_count_fprintf_d n⟩
      · exact Or.inr (Or.inr ⟨hu, by rw [hu]; decide⟩)
      · exact Or.inr (Or.inl ⟨hv, by rw [hv]; decide⟩)
  · intro h2
    rw [main_accepted argc _ os h2 (by decide)]
    rfl
  · intro h2
    rw [main_accepted argc _ os h2 (by decide)]
    rfl

/-- The witness of `successful_output`: `--usable` on the example system. -/
theorem successful_output_witness :
    (((∃ n : Int, (main 2 [⟨OPT_USABLE, ""⟩] example_os).stdout = toString n ++ "\n") ∧
          line_count (main 2 [⟨OPT_USABLE, ""⟩] example_os).stdout = 1) ∨
        ((main 2 [⟨OPT_USABLE, ""⟩] example_os).stdout = "nproc 0.1\n" ∧
          line_count (main 2 [⟨OPT_USABLE, ""⟩] example_os).stdout = 1) ∨
        ((main 2 [⟨OPT_USABLE, ""⟩] example_os).stdout = usage_text ∧
          line_count (main 2 [⟨OPT_USABLE, ""⟩] example_os).stdout = 2)) ∧
    main 2 [⟨OPT_VERSION, ""⟩] example_os = ⟨"nproc 0.1\n", "", EXIT_SUCCESS⟩ ∧
    main 2 [⟨OPT_HELP, ""⟩] example_os = ⟨usage_text, "", EXIT_SUCCESS⟩ :=
  ⟨(successful_output 2 [⟨OPT_USABLE, ""⟩] example_os).1 (by decide),
   (successful_output 2 [] example_os).2.1 (by decide),
   (successful_output 2 [] example_os).2.2 (by decide)⟩

theorem example_os_sysconf (q n : Int)
    (h : get_count_type_cpus example_os q = Except.ok n) : 0 ≤ n := by
  unfold get_count_type_cpus example_os at h
  simp only [] at h
  by_cases h1 : q = _SC_NPROCESSORS_CONF
  · simp [h1] at h
    subst h
    decide
  · by_cases h2 : q = _SC_NPROCESSORS_ONLN
    · subst h2
      have e : get_count_type_cpus example_os _SC_NPROCESSORS_ONLN = Except.ok 6 := rfl
      unfold get_count_type_cpus example_os at e
      rw [e] at h
      injection h with h
      omega
    · simp [h1, h2] at h

/-- C10: among accepted flags without `--ignore`, when exactly one of `--all`,
`--online`, `--usable` is given, or none of them and neither `--help` nor
`--version`, and the queries return non-negative counts, inserting
`--ignore=0` anywhere leaves the whole run of `main` unchanged. -/
theorem ignore_zero_neutral (argc argc2 : Int) (pre post : List GetoptCall) (os : OS)
    (hargc2 : 2 ≤ argc2) (hargc : 2 ≤ argc ∨ pre ++ post = [])
    (hacc : ∀ g ∈ pre ++ post, accepted g = true)
    (hni : given OPT_IGNORE (pre ++ post) = false)
    (hflags :
      (given OPT_ALL (pre ++ post) = true ∧ given OPT_ONLINE (pre ++ post) = false ∧
        given OPT_USABLE (pre ++ post) = false) ∨
      (given OPT_ALL (pre ++ post) = false ∧ given OPT_ONLINE (pre ++ post) = true ∧
        given OPT_USABLE (pre ++ post) = false) ∨
      (given OPT_ALL (pre ++ post) = false ∧ given OPT_ONLINE (pre ++ post) = false ∧
        given OPT_USABLE (pre ++ post) = true) ∨
      (given OPT_ALL (pre ++ post) = false ∧ given OPT_ONLINE (pre ++ post) = false ∧
        given OPT_USABLE (pre ++ post) = false ∧ given OPT_HELP (pre ++ post) = false ∧
        given OPT_VERSION (pre ++ post) = false))
    (hq1 : ∀ n, count_usable_cpus os = Except.ok n → 0 ≤ n)
    (hq2 : ∀ q n, get_count_type_cpus os q = Except.ok n → 0 ≤ n) :
    main argc2 (pre ++ ⟨OPT_IGNORE, "0"⟩ :: post) os = main argc (pre ++ post) os := by
  have hg : accepted ⟨OPT_IGNORE, "0"⟩ = true := by decide
  have hpost : given OPT_IGNORE post = false := by
    simp only [given, List.any_append, Bool.or_eq_false_iff] at hni
    exact hni.2
  have a1 : adjusted 0 (count_usable_cpus os) = count_usable_cpus os :=
    adjusted_zero _ (fun n hn => ⟨hq1 n hn, (count_usable_cpus_range os n hn).2⟩)
  have a2 : ∀ q, adjusted 0 (get_count_type_cpus os q) = get_count_type_cpus os q :=
    fun q => adjusted_zero _ (fun n hn => ⟨hq2 q n hn, (get_count_type_cpus_range os q n hn).2⟩)
  have hleft : main argc2 (pre ++ ⟨OPT_IGNORE, "0"⟩ :: post) os =
      report (if given OPT_USABLE (pre ++ post) = true ∨
          (given OPT_ALL (pre ++ post) = false ∧ given OPT_ONLINE (pre ++ post) = false ∧
            given OPT_USABLE (pre ++ post) = false) then count_usable_cpus os
        else if given OPT_ALL (pre ++ post) = true then
          get_count_type_cpus os _SC_NPROCESSORS_CONF
        else get_count_type_cpus os _SC_NPROCESSORS_ONLN) := by
    have gi : given OPT_IGNORE (pre ++ ⟨OPT_IGNORE, "0"⟩ :: post) = true := by
      rw [given_insert]; simp
    have ga : given OPT_ALL (pre ++ ⟨OPT_IGNORE, "0"⟩ :: post) = given OPT_ALL (pre ++ post) := by
      rw [given_insert]; simp [OPT_IGNORE, OPT_ALL]
    have go : given OPT_ONLINE (pre ++ ⟨OPT_IGNORE, "0"⟩ :: post) =
        given OPT_ONLINE (pre ++ post) := by
      rw [given_insert]; simp [OPT_IGNORE, OPT_ONLINE]
    have gu : given OPT_USABLE (pre ++ ⟨OPT_IGNORE, "0"⟩ :: post) =
        given OPT_USABLE (pre ++ post) := by
      rw [given_insert]; simp [OPT_IGNORE, OPT_USABLE]
    rw [main_accepted argc2 _ os hargc2 (accepted_insert pre post _ hacc hg), main_resolve_table,
      final_inum_last pre post "0" 0 (by rfl) hpost, gi, ga, go, gu]
    simp only [if_true]
    split
    · rw [a1]
    · split
      · rw [a2]
      · rw [a2]
  rw [hleft]
  rcases hargc with h2 | hnil
  · rw [main_accepted argc _ os h2 hacc, main_resolve_table, hni]
    revert hflags
    generalize given OPT_ALL (pre ++ post) = a
    generalize given OPT_ONLINE (pre ++ post) = o
    generalize given OPT_USABLE (pre ++ post) = u
    generalize given OPT_HELP (pre ++ post) = h
    generalize given OPT_VERSION (pre ++ post) = v
    cases a <;> cases o <;> cases u <;> cases h <;> cases v <;> simp
  · rw [hnil] at hflags ⊢
    have hmain : main argc [] os = report (count_usable_cpus os) := by
      unfold main
      split
      · cases count_usable_cpus os <;> rfl
      · simp only [getopt_loop]
        unfold main_resolve
        simp
        cases count_usable_cpus os <;> rfl
    rw [hmain]
    simp [given]

/-- The witness of `ignore_zero_neutral`: `--online --help` with and without `--ignore=0`. -/
theorem ignore_zero_neutral_witness :
    main 4 [⟨OPT_ONLINE, ""⟩, ⟨OPT_IGNORE, "0"⟩, ⟨OPT_HELP, ""⟩] example_os =
      main 3 [⟨OPT_ONLINE, ""⟩, ⟨OPT_HELP, ""⟩] example_os :=
  ignore_zero_neutral 3 4 [⟨OPT_ONLINE, ""⟩] [⟨OPT_HELP, ""⟩] example_os (by decide)
    (Or.inl (by decide)) (by decide) (by decide) (Or.inr (Or.inl (by decide)))
    (fun n hn => by
      have e : count_usable_cpus example_os = Except.ok 4 := rfl
      rw [e] at hn; injection hn with hn; omega)
    example_os_sysconf

end Nproc
